import Mathlib

/-!
# JavaDownloader (launcher/JavaDownloader.cpp)

A shallow embedding of the Java runtime acquisition task of the launcher: the
platform mapper `mojangOStoAzul`, the chain of network jobs started by
`downloadMojangJavaList`, `parseMojangManifest`, `downloadMojangJava`,
`downloadAzulMeta` and `downloadAzulJava`, and the signal/slot connections that
tie the jobs to the terminal events of the task.

Qt signals and slots are modelled by an explicit connection table: every
`connect(sender, signal, slot)` of the source adds one row, and emitting a
signal runs the slots of the matching rows in connection order.
-/

namespace JavaDownloader

/-! ## JSON documents (QJsonValue, QJsonObject, QJsonArray, QJsonDocument) -/

/-- A `QJsonValue`. The members of an object are listed in the order of
`QJsonObject::keys()`. Numbers are never inspected by this program. -/
inductive QJsonValue where
  | null
  | undefined
  | bool (b : Bool)
  | double (d : Int)
  | string (s : String)
  | array (items : List QJsonValue)
  | object (members : List (String × QJsonValue))

abbrev QJsonArray := List QJsonValue

abbrev QJsonObject := List (String × QJsonValue)

/-- Qt `QJsonObject::contains`. -/
def QJsonObject.contains (o : QJsonObject) (key : String) : Bool :=
  o.any (fun kv => kv.1 == key)

/-- Qt `QJsonObject::value` (also `operator[]`): the member stored under `key`,
or `Undefined` when there is none. -/
def QJsonObject.value (o : QJsonObject) (key : String) : QJsonValue :=
  match o.find? (fun kv => kv.1 == key) with
  | some kv => kv.2
  | none => .undefined

/-- Qt `QJsonObject::keys`. -/
def QJsonObject.keys (o : QJsonObject) : List String :=
  o.map Prod.fst

/-- Qt `QJsonValue::toObject`: the object, or an empty object for any other kind. -/
def QJsonValue.toObject : QJsonValue → QJsonObject
  | .object o => o
  | _ => []

/-- Qt `QJsonValue::toString`: the string, or an empty string for any other kind. -/
def QJsonValue.toString : QJsonValue → String
  | .string s => s
  | _ => ""

/-- Qt `QJsonArray::operator[]` read access; out of range gives `Undefined`. -/
def QJsonArray.at (a : QJsonArray) (i : Nat) : QJsonValue :=
  a.getD i .undefined

/-- A `QJsonDocument`: it wraps an array or an object, or is empty. -/
inductive QJsonDocument where
  | empty
  | ofArray (a : QJsonArray)
  | ofObject (o : QJsonObject)

/-- Qt `QJsonDocument::object`: empty when the document holds an array. -/
def QJsonDocument.object : QJsonDocument → QJsonObject
  | .ofObject o => o
  | _ => []

/-- Qt `QJsonDocument::array`: empty when the document holds an object. -/
def QJsonDocument.array : QJsonDocument → QJsonArray
  | .ofArray a => a
  | _ => []

/-- The error record filled in by `QJsonDocument::fromJson`. -/
structure QJsonParseError where
  offset : Nat
  errorString : String
  deriving DecidableEq, Repr

/-- A response buffer as the JSON parser sees it: either the parser rejects
the bytes with a parse error, or it yields a document. The parser itself is an
external collaborator. -/
inductive QByteArray where
  | malformed (raw : String) (parse_error : QJsonParseError)
  | json (raw : String) (doc : QJsonDocument)

/-- Raw bytes of a response buffer. -/
def QByteArray.raw : QByteArray → String
  | .malformed r _ => r
  | .json r _ => r

/-- Qt `QJsonDocument::fromJson(bytes, &parse_error)`: the outcome with
`parse_error.error != NoError` is `Except.error`. -/
def QJsonDocument.fromJson : QByteArray → Except QJsonParseError QJsonDocument
  | .malformed _ e => .error e
  | .json _ doc => .ok doc

/-! ## Json.h helpers -/

/-- The exception thrown by the `Json::require*` helpers. -/
structure JsonException where
  cause : String
  deriving DecidableEq, Repr

namespace Json

/-- Modelled from the spec: `Json::ensureObject(value)` of Json.h, which is not
among the sources. A value that is not an object counts as the empty object
("not an error"). -/
def ensureObject : QJsonValue → QJsonObject
  | .object o => o
  | _ => []

/-- Modelled from the spec: `Json::ensureArray(value)` of Json.h, which is not
among the sources. A value that is not an array counts as the empty array. -/
def ensureArray : QJsonValue → QJsonArray
  | .array a => a
  | _ => []

/-- Modelled from the spec: `Json::ensureObject(parent, key)` of Json.h: the
object under `key`, empty when the key is missing or holds something else. -/
def ensureObjectAt (parent : QJsonObject) (key : String) : QJsonObject :=
  if parent.contains key then ensureObject (parent.value key) else []

/-- Modelled from the spec: `Json::ensureArray(parent, key)` of Json.h: the
array under `key`, empty when the key is missing or holds something else. -/
def ensureArrayAt (parent : QJsonObject) (key : String) : QJsonArray :=
  if parent.contains key then ensureArray (parent.value key) else []

/-- Modelled from the spec: `Json::ensureString(parent, key)` of Json.h: the
string under `key`, empty when the key is missing or holds something else. -/
def ensureString (parent : QJsonObject) (key : String) : String :=
  match parent.value key with
  | .string s => s
  | _ => ""

/-- Modelled from the spec: `Json::ensureBoolean(parent, key, default)` of
Json.h: the boolean under `key`, `default_` when the key is missing or holds
something else. -/
def ensureBoolean (parent : QJsonObject) (key : String) (default_ : Bool) : Bool :=
  match parent.value key with
  | .bool b => b
  | _ => default_

/-- Modelled from the spec: `Json::requireObject(parent, key)` of Json.h, which
is not among the sources. The spec gives a required field no default: a missing
key or a value of another kind throws `JsonException`. -/
def requireObject (parent : QJsonObject) (key : String) : Except JsonException QJsonObject :=
  match parent.value key with
  | .object o => .ok o
  | _ => .error ⟨key⟩

/-- Modelled from the spec: `Json::requireString(parent, key)` of Json.h, which
is not among the sources. The spec gives a required field no default: a missing
key or a value of another kind throws `JsonException`. -/
def requireString (parent : QJsonObject) (key : String) : Except JsonException String :=
  match parent.value key with
  | .string s => .ok s
  | _ => .error ⟨key⟩

end Json

/-! ## Paths, URLs and byte arrays -/

/-- Splits a path at every `/`. -/
def splitSlash : List Char → List (List Char)
  | [] => [[]]
  | c :: cs =>
    if c = '/' then [] :: splitSlash cs
    else
      match splitSlash cs with
      | [] => [[c]]
      | seg :: segs => (c :: seg) :: segs

/-- Resolves `.` and `..` segments and drops empty ones; `stack` holds the
segments kept so far, innermost first. -/
def resolveSegments (absolute : Bool) : List (List Char) → List (List Char) → List (List Char)
  | [], stack => stack.reverse
  | seg :: rest, stack =>
    if seg = [] ∨ seg = ['.'] then resolveSegments absolute rest stack
    else if seg = ['.', '.'] then
      match stack with
      | [] => if absolute then resolveSegments absolute rest [] else resolveSegments absolute rest [seg]
      | top :: below =>
        if top = ['.', '.'] then resolveSegments absolute rest (seg :: stack)
        else resolveSegments absolute rest below
    else resolveSegments absolute rest (seg :: stack)

/-- Qt `QDir::cleanPath`: redundant separators removed, `.` and `..` resolved as
far as possible. -/
def cleanPath (path : String) : String :=
  let absolute := path.data.head? = some '/'
  let segs := resolveSegments absolute (splitSlash path.data) []
  let body := String.mk (List.intercalate ['/'] segs)
  if absolute then "/" ++ body else if segs = [] then "." else body

namespace FS

/-- Modelled from the spec: `FS::PathCombine(path1, path2)` of FileSystem.h,
which is not among the sources: `installRoot/relativePath`, cleaned by
`QDir::cleanPath`; an empty component is dropped. -/
def PathCombine (path1 path2 : String) : String :=
  if path1 = "" then path2
  else if path2 = "" then path1
  else cleanPath (path1 ++ "/" ++ path2)

/-- Modelled from the spec: `FS::PathCombine(path1, path2, path3)` of
FileSystem.h, the three components joined left to right. -/
def PathCombine3 (path1 path2 path3 : String) : String :=
  PathCombine (PathCombine path1 path2) path3

end FS

/-- Value of one hexadecimal digit, `none` for any other character. -/
def hexDigit (c : Char) : Option Nat :=
  if '0' ≤ c ∧ c ≤ '9' then some (c.toNat - 48)
  else if 'a' ≤ c ∧ c ≤ 'f' then some (c.toNat - 87)
  else if 'A' ≤ c ∧ c ≤ 'F' then some (c.toNat - 55)
  else none

/-- Pairs up nibbles given last digit first, producing bytes last byte first. -/
def pairNibbles : List Nat → List Nat
  | [] => []
  | [lo] => [lo]
  | lo :: hi :: rest => (hi * 16 + lo) :: pairNibbles rest

/-- Qt `QByteArray::fromHex`: characters that are not hex digits are skipped and
the digits are paired from the end of the input. -/
def fromHex (hexEncoded : String) : List Nat :=
  (pairNibbles (hexEncoded.data.filterMap hexDigit).reverse).reverse

/-- Qt `QUrl::fileName().chopped(4)`: the last path segment of the URL without its
last four characters. -/
def archiveDirName (downloadURL : String) : String :=
  let path := downloadURL.data.takeWhile (fun c => c ≠ '?' ∧ c ≠ '#')
  let fileName := (splitSlash path).getLastD []
  String.mk (fileName.take (fileName.length - 4))


/-! ## Jobs, signals and slots -/

/-- Quick and dirty struct to store files (`struct File`). -/
structure File where
  path : String
  url : String
  hash : List Nat
  isExec : Bool
  deriving DecidableEq, Repr

/-- The five `NetJob` objects the task creates, by creation site:
`netJob` (JRE::QueryVersions), `download` of `parseMojangManifest`
(JRE::DownloadJava), `elementDownload` (JRE::FileDownload), `downloadJob`
(JRE::QueryAzulMeta) and `download` of `downloadAzulJava` (JRE::DownloadJava). -/
inductive JobId where
  | queryVersions
  | manifestDownload
  | fileDownload
  | queryAzulMeta
  | azulDownload
  deriving DecidableEq, Repr

/-- A unit of work handed to a `NetJob`: `Net::Download::makeByteArray(url, buf)`
or `Net::Download::makeFile(url, path)` with the SHA-1 `ChecksumValidator`
added to it, if any. -/
inductive NetAction where
  | makeByteArray (url : String)
  | makeFile (url : String) (path : String) (validator : Option (List Nat))
  deriving DecidableEq, Repr

/-- Objects that emit signals: the task itself, one of its jobs, or the
`Net::Download` writing to `target`. -/
inductive Sender where
  | task
  | netJob (j : JobId)
  | download (target : String)
  deriving DecidableEq, Repr

/-- The signals of `Task`, `NetJob` and `Net::Download` the source connects. -/
inductive Signal where
  | succeeded
  | failed
  | finished
  | progress
  | aborted
  deriving DecidableEq, Repr

/-- The receivers named in the `connect` calls of the source. The lambdas carry
their captures. -/
inductive Slot where
  /-- Slot `&JavaDownloader::emitFailed` -/
  | emitFailed
  /-- Slot `&JavaDownloader::progress` -/
  | progress
  /-- Slot `&NetJob::abort` of job `j` -/
  | abortJob (j : JobId)
  /-- Lambda of `downloadMojangJavaList` on `Task::aborted` -/
  | removeInstallDir (isLegacy : Bool)
  /-- Lambdas on `NetJob::finished` -/
  | jobFinished (j : JobId)
  /-- Lambda of `downloadMojangJavaList` on `NetJob::succeeded` -/
  | versionsSucceeded (OS : String) (isLegacy : Bool)
  /-- Lambda of `parseMojangManifest` on `NetJob::succeeded` -/
  | manifestSucceeded (isLegacy : Bool)
  /-- Lambda of `downloadMojangJava` on `Net::Download::succeeded` -/
  | setExecutable (file : File)
  /-- Lambda of `downloadMojangJava` on `NetJob::succeeded` -/
  | emitSucceeded
  /-- Lambda of `downloadAzulMeta` on `NetJob::succeeded` -/
  | azulMetaSucceeded (isLegacy : Bool)
  /-- Lambda of `downloadAzulJava` on `NetJob::succeeded` -/
  | azulDownloadSucceeded (isLegacy : Bool) (file : String) (downloadURL : String)
  deriving DecidableEq, Repr

/-- One `connect(sender, signal, slot)`. -/
structure Connection where
  sender : Sender
  signal : Signal
  slot : Slot
  deriving DecidableEq, Repr

/-- What the task does to the outside world, in the order it does it. -/
inductive Effect where
  | setStatus (msg : String)
  | qWarning (offset : Nat) (errorString : String) (raw : String)
  | start (j : JobId) (actions : List NetAction)
  | abort (j : JobId)
  | ensureFolderPathExists (path : String)
  | link (target linkName : String)
  | removeRecursively (dir : String)
  | openTemporaryFile (fileName : String)
  | setPermissions (path : String) (permissions : Nat)
  | extractDir (zip subdir target : String) (ok : Bool)
  | failed (reason : String)
  | succeeded
  | aborted
  deriving DecidableEq, Repr

/-- The terminal events of a `Task`. -/
def Effect.isTerminal : Effect → Bool
  | .failed _ => true
  | .succeeded => true
  | .aborted => true
  | _ => false

/-- The state of a `Task`. -/
inductive TaskState where
  | running
  | succeeded
  | failed
  | aborted
  deriving DecidableEq, Repr

/-- What the task reads from its surroundings. -/
structure Env where
  /-- Value of `APPLICATION->root()` -/
  root : String
  /-- Value of `QCoreApplication::applicationDirPath()` -/
  applicationDirPath : String
  /-- Value of `QDir::currentPath()`, against which relative paths resolve -/
  currentPath : String
  /-- The name `QTemporaryFile` makes out of its template -/
  temporaryFileName : String → String
  /-- Whether `MMCZip::extractDir` returns a value -/
  extractDirOk : Bool

/-- The task with its connection table, its effects so far, the permission
bits of the files on disk, an exception that left a slot uncaught, and the
response buffers the jobs write to. -/
structure State where
  taskState : TaskState
  connections : List Connection
  trace : List Effect
  permissions : String → Nat
  uncaught : Option JsonException
  /-- The response buffers `response`, `files` and `metaResponse`, by job -/
  buffers : JobId → QByteArray

/-- Appends an effect to the trace. -/
def State.push (s : State) (e : Effect) : State :=
  { s with trace := s.trace ++ [e] }

/-- Qt `connect(sender, signal, receiver, slot)`. -/
def State.connect (s : State) (sender : Sender) (signal : Signal) (slot : Slot) : State :=
  { s with connections := s.connections ++ [⟨sender, signal, slot⟩] }

/-- Qt `disconnect(sender, signal, receiver, slot)`. -/
def State.disconnect (s : State) (sender : Sender) (signal : Signal) (slot : Slot) : State :=
  { s with connections := s.connections.filter (fun c => decide (c ≠ ⟨sender, signal, slot⟩)) }

/-- Destruction of a job object (`deleteLater`): its outgoing connections go. -/
def State.deleteJob (s : State) (j : JobId) : State :=
  { s with connections := s.connections.filter (fun c => decide (c.sender ≠ .netJob j)) }

/-- Modelled from the spec: `Task::emitFailed` of tasks/Task.h, which is not
among the sources. A running task becomes Failed and emits `failed(reason)`;
"exactly one terminal state is reached per pipeline run", so a task that is no
longer running emits nothing. -/
def emitFailed (reason : String) (s : State) : State :=
  if s.taskState = .running then { s.push (.failed reason) with taskState := .failed } else s

/-- Modelled from the spec: `Task::emitSucceeded` of tasks/Task.h, which is not
among the sources. A running task becomes Succeeded and emits `succeeded()`; a
task that is no longer running emits nothing. -/
def emitSucceeded (s : State) : State :=
  if s.taskState = .running then { s.push .succeeded with taskState := .succeeded } else s

/-- Flag `QFileDevice::ExeOwner`. -/
def ExeOwner : Nat := 0x1000

/-- Flag `QFileDevice::ExeUser`. -/
def ExeUser : Nat := 0x0100

/-- Flag `QFileDevice::ExeGroup`. -/
def ExeGroup : Nat := 0x0010

/-- Flag `QFileDevice::ExeOther`. -/
def ExeOther : Nat := 0x0001

/-- Qt `QFile(path).setPermissions(perms)`. -/
def State.setPermissions (s : State) (path : String) (perms : Nat) : State :=
  { s.push (.setPermissions path perms) with
    permissions := fun p => if p = path then perms else s.permissions p }

/-! ## Platform mapper -/

/-- Source `JavaDownloader::mojangOStoAzul`. The three reference parameters
`azulOS`, `arch` and `bitness` are passed in with the contents they hold before
the call and returned with the contents they hold after it. -/
def mojangOStoAzul (OS : String) (azulOS arch bitness : String) : String × String × String :=
  if OS = "mac-os-arm64" then
    ("macos", "arm", "64")
  else if OS = "linux-arm64" then
    ("linux", "arm", "64")
  else if OS = "linux-arm" then
    ("linux", "arm", "32")
  else if OS = "linux" then
    ("linux", "x86", "64")
  else
    (azulOS, arch, bitness)

/-! ## The stages of the task -/

/-- Body of the first loop of `downloadMojangJava` for the key `paths`: the
file-system effects it performs and the files it appends to `toDownload`, or
the exception it throws. -/
def classifyEntry (output : String) (list : QJsonObject) (paths : String) :
    Except JsonException (List Effect × List File) :=
  let file := FS.PathCombine output paths
  match Json.requireObject list paths with
  | .error e => .error e
  | .ok entry =>
    match Json.requireString entry "type" with
    | .error e => .error e
    | .ok type =>
      if type = "directory" then
        .ok ([.ensureFolderPathExists file], [])
      else if type = "link" then
        match Json.requireString entry "target" with
        | .error e => .error e
        | .ok t => .ok ([.link (FS.PathCombine file ("../" ++ t)) file], [])
      else if type = "file" then
        match Json.requireObject entry "downloads" with
        | .error e => .error e
        | .ok downloads =>
          match Json.requireObject downloads "raw" with
          | .error e => .error e
          | .ok raw =>
            let isExec := Json.ensureBoolean entry "executable" false
            match Json.requireString raw "url" with
            | .error e => .error e
            | .ok url => .ok ([], [⟨file, url, fromHex (Json.ensureString raw "sha1"), isExec⟩])
      else
        .ok ([], [])

/-- First loop of `downloadMojangJava` over `list.keys()`: the effects
performed up to the end of the loop or up to the first exception, and the
collected `toDownload` or that exception. -/
def classifyEntries (output : String) (list : QJsonObject) :
    List String → List Effect × Except JsonException (List File)
  | [] => ([], .ok [])
  | paths :: rest =>
    match classifyEntry output list paths with
    | .error e => ([], .error e)
    | .ok (effects, files) =>
      let r := classifyEntries output list rest
      (effects ++ r.1,
        match r.2 with
        | .error e => .error e
        | .ok more => .ok (files ++ more))

/-- Second loop of `downloadMojangJava`: the download made for one `File`; an
executable file gets the permission lambda connected to its `succeeded`. -/
def addDownload (s : State) (file : File) : State :=
  if file.isExec then s.connect (.download file.path) .succeeded (.setExecutable file) else s

/-- The net action made for one `File`. -/
def fileAction (file : File) : NetAction :=
  .makeFile file.url file.path (some file.hash)

/-- Source `JavaDownloader::downloadMojangJava`. -/
def downloadMojangJava (isLegacy : Bool) (doc : QJsonDocument) (s : State) : State :=
  let output := FS.PathCombine "java" (if isLegacy then "java-legacy" else "java-current")
  let s := s.push (.ensureFolderPathExists output)
  let list := Json.ensureObjectAt (Json.ensureObject (.object doc.object)) "files"
  let r := classifyEntries output list list.keys
  let s := { s with trace := s.trace ++ r.1 }
  match r.2 with
  | .error e => { s with uncaught := some e }
  | .ok toDownload =>
    let s := toDownload.foldl addDownload s
    let s := s.connect (.netJob .fileDownload) .finished (.jobFinished .fileDownload)
    let s := s.connect (.netJob .fileDownload) .progress .progress
    let s := s.connect (.netJob .fileDownload) .failed .emitFailed
    let s := s.connect .task .aborted (.abortJob .fileDownload)
    let s := s.connect (.netJob .fileDownload) .succeeded .emitSucceeded
    s.push (.start .fileDownload (toDownload.map fileAction))

/-- Source `JavaDownloader::parseMojangManifest`. -/
def parseMojangManifest (isLegacy : Bool) (versionArray : QJsonArray) (s : State) : State :=
  let s := s.push (.setStatus "Downloading java from Mojang")
  let url := Json.ensureString
    (Json.ensureObjectAt (Json.ensureObject (QJsonArray.at versionArray 0)) "manifest") "url"
  let s := s.connect (.netJob .manifestDownload) .finished (.jobFinished .manifestDownload)
  let s := s.connect (.netJob .manifestDownload) .progress .progress
  let s := s.connect (.netJob .manifestDownload) .failed .emitFailed
  let s := s.connect .task .aborted (.abortJob .manifestDownload)
  let s := s.connect (.netJob .manifestDownload) .succeeded (.manifestSucceeded isLegacy)
  s.push (.start .manifestDownload [.makeByteArray url])

/-- The bundle query URL built by `downloadAzulMeta` with `QString::arg`. -/
def azulQuery (javaVersion azulOS arch bitness : String) : String :=
  "https://api.azul.com/zulu/download/community/v1.0/bundles/?"
    ++ "java_version=" ++ javaVersion
    ++ "&os=" ++ azulOS
    ++ "&arch=" ++ arch
    ++ "&hw_bitness=" ++ bitness
    ++ "&ext=zip"
    ++ "&bundle_type=jre"
    ++ "&latest=true"

/-- Source `JavaDownloader::downloadAzulMeta`; `netJob` is the job passed in by the
caller. -/
def downloadAzulMeta (OS : String) (isLegacy : Bool) (netJob : JobId) (s : State) : State :=
  let s := s.push (.setStatus "Querying Azul meta")
  let javaVersion := if isLegacy then "8.0" else "17.0"
  let mapped := mojangOStoAzul OS "" "" ""
  let s := s.connect (.netJob .queryAzulMeta) .finished (.jobFinished .queryAzulMeta)
  let s := s.connect .task .aborted (.abortJob .queryAzulMeta)
  let s := s.connect (.netJob netJob) .failed .emitFailed
  let s := s.connect (.netJob .queryAzulMeta) .progress .progress
  let s := s.connect (.netJob .queryAzulMeta) .succeeded (.azulMetaSucceeded isLegacy)
  s.push (.start .queryAzulMeta [.makeByteArray (azulQuery javaVersion mapped.1 mapped.2.1 mapped.2.2)])

/-- Source `JavaDownloader::downloadAzulJava`. -/
def downloadAzulJava (env : Env) (isLegacy : Bool) (array : QJsonArray) (s : State) : State :=
  let s := s.push (.setStatus "Downloading java from Azul")
  let downloadURL := ((QJsonArray.at array 0).toObject.value "url").toString
  let temp := env.temporaryFileName (FS.PathCombine3 env.root "temp" "XXXXXX.zip")
  let s := s.push (.ensureFolderPathExists (FS.PathCombine env.root "temp"))
  let s := s.push (.openTemporaryFile temp)
  let s := s.connect (.netJob .azulDownload) .finished (.jobFinished .azulDownload)
  let s := s.connect (.netJob .azulDownload) .progress .progress
  let s := s.connect (.netJob .azulDownload) .failed .emitFailed
  let s := s.connect .task .aborted (.abortJob .azulDownload)
  let s := s.connect (.netJob .azulDownload) .succeeded (.azulDownloadSucceeded isLegacy temp downloadURL)
  s.push (.start .azulDownload [.makeFile downloadURL temp none])

/-- Source `JavaDownloader::downloadMojangJavaList`. -/
def downloadMojangJavaList (OS : String) (isLegacy : Bool) (s : State) : State :=
  let s := s.push (.setStatus "Querying mojang meta")
  let s := s.connect .task .aborted (.removeInstallDir isLegacy)
  let s := s.connect (.netJob .queryVersions) .finished (.jobFinished .queryVersions)
  let s := s.connect (.netJob .queryVersions) .progress .progress
  let s := s.connect (.netJob .queryVersions) .failed .emitFailed
  let s := s.connect .task .aborted (.abortJob .queryVersions)
  let s := s.connect (.netJob .queryVersions) .succeeded (.versionsSucceeded OS isLegacy)
  s.push (.start .queryVersions [.makeByteArray
    "https://piston-meta.mojang.com/v1/products/java-runtime/2ec0cc96c44e5a76b9c8b7c39df7210883d12871/all.json"])

/-- Source `JavaDownloader::executeTask`. -/
def executeTask (OS : String) (isLegacy : Bool) (s : State) : State :=
  downloadMojangJavaList OS isLegacy s

/-! ## The slots -/

/-- The `succeeded` lambda of `downloadMojangJavaList`; `response` is the
buffer the job filled, `s.buffers .queryVersions`. -/
def versionsSucceeded (OS : String) (isLegacy : Bool) (s : State) : State :=
  let response := s.buffers .queryVersions
  match QJsonDocument.fromJson response with
  | .error parse_error => s.push (.qWarning parse_error.offset parse_error.errorString response.raw)
  | .ok doc =>
    let versionArray := Json.ensureArrayAt (Json.ensureObjectAt doc.object OS)
      (if isLegacy then "jre-legacy" else "java-runtime-gamma")
    if !versionArray.isEmpty then
      parseMojangManifest isLegacy versionArray s
    else
      downloadAzulMeta OS isLegacy .queryVersions s

/-- The `succeeded` lambda of `parseMojangManifest`; `files` is the buffer the
job filled. -/
def manifestSucceeded (isLegacy : Bool) (s : State) : State :=
  let files := s.buffers .manifestDownload
  match QJsonDocument.fromJson files with
  | .error parse_error => s.push (.qWarning parse_error.offset parse_error.errorString files.raw)
  | .ok doc => downloadMojangJava isLegacy doc s

/-- The `succeeded` lambda of `downloadAzulMeta`; `metaResponse` is the buffer
the job filled. -/
def azulMetaSucceeded (env : Env) (isLegacy : Bool) (s : State) : State :=
  let metaResponse := s.buffers .queryAzulMeta
  match QJsonDocument.fromJson metaResponse with
  | .error parse_error =>
    s.push (.qWarning parse_error.offset parse_error.errorString metaResponse.raw)
  | .ok doc =>
    let array := Json.ensureArray (.array doc.array)
    if !array.isEmpty then
      downloadAzulJava env isLegacy array s
    else
      emitFailed "No suitable JRE found" s

/-- The `succeeded` lambda of `downloadAzulJava`. The value returned by
`MMCZip::extractDir` is dropped. -/
def azulDownloadSucceeded (env : Env) (isLegacy : Bool) (file downloadURL : String) (s : State) :
    State :=
  let s := s.push (.setStatus "Extracting java")
  let output := FS.PathCombine3 env.applicationDirPath "java"
    (if isLegacy then "java-legacy" else "java-current")
  let s := s.push (.extractDir file (archiveDirName downloadURL) output env.extractDirOk)
  emitSucceeded s

/-- The `aborted` lambda of `downloadMojangJavaList`. -/
def removeInstallDir (isLegacy : Bool) (s : State) : State :=
  s.push (.removeRecursively (FS.PathCombine "java" (if isLegacy then "java-legacy" else "java-current")))

/-- The permission lambda of `downloadMojangJava`. -/
def setExecutable (file : File) (s : State) : State :=
  s.setPermissions file.path (s.permissions file.path ||| 0x1111)

/-- The `finished` lambdas: the abort connection of the job is removed and the
job is deleted. -/
def jobFinished (j : JobId) (s : State) : State :=
  (s.disconnect .task .aborted (.abortJob j)).deleteJob j

/-! ## Signal delivery -/

/-- The slots connected to `signal` of `sender`, in connection order. -/
def State.slotsFor (s : State) (sender : Sender) (signal : Signal) : List Slot :=
  (s.connections.filter (fun c => decide (c.sender = sender ∧ c.signal = signal))).map (·.slot)

/-- Emits `signal` of `sender`: the connected slots run one after the other,
until an exception escapes one of them. -/
def emitSignal (run : Slot → State → State) (sender : Sender) (signal : Signal) (s : State) :
    State :=
  (s.slotsFor sender signal).foldl (fun st slot => if st.uncaught.isSome then st else run slot st) s

/-- Runs a slot that emits no signal of the jobs itself. `reason` is the
argument of `failed(QString)`, the only signal argument a slot reads. -/
def runPlainSlot (env : Env) (reason : String) : Slot → State → State
  | .emitFailed, s => emitFailed reason s
  | .progress, s => s
  | .abortJob _, s => s
  | .removeInstallDir isLegacy, s => removeInstallDir isLegacy s
  | .jobFinished j, s => jobFinished j s
  | .versionsSucceeded OS isLegacy, s => versionsSucceeded OS isLegacy s
  | .manifestSucceeded isLegacy, s => manifestSucceeded isLegacy s
  | .setExecutable file, s => setExecutable file s
  | .emitSucceeded, s => emitSucceeded s
  | .azulMetaSucceeded isLegacy, s => azulMetaSucceeded env isLegacy s
  | .azulDownloadSucceeded isLegacy file downloadURL, s =>
    azulDownloadSucceeded env isLegacy file downloadURL s

/-- Runs a slot. Modelled from the spec: `NetJob::abort` of net/NetJob.h, which
is not among the sources, "supports single-call abort": the job stops and
emits `finished`. -/
def runSlot (env : Env) (reason : String) : Slot → State → State
  | .abortJob j, s => emitSignal (runPlainSlot env "") (.netJob j) .finished (s.push (.abort j))
  | slot, s => runPlainSlot env reason slot s

/-- Modelled from the spec: `Task::abort` of tasks/Task.h, which is not among
the sources. A running task becomes Aborted and emits `aborted()`; "safe to
call after completion (no-op)". -/
def abort (env : Env) (s : State) : State :=
  if s.taskState = .running then
    emitSignal (runSlot env "") .task .aborted { s.push .aborted with taskState := .aborted }
  else s

/-- What the surroundings can make happen: a job completes all its actions
(`data` is what a `makeByteArray` action wrote to its buffer), a job fails with
the engine's message, a single file transfer completes, the user aborts. -/
inductive Event where
  | netJobSucceeded (j : JobId) (data : QByteArray)
  | netJobFailed (j : JobId) (reason : String)
  | downloadSucceeded (target : String)
  | abort

/-- Modelled from the spec: the download engine (net/NetJob.h, tasks/Task.h),
which is not among the sources. A job that succeeds emits `succeeded()` and
then `finished()`; a job that fails emits `failed(reason)` and then
`finished()`. Nothing more happens once an exception has escaped a slot. -/
def step (env : Env) (s : State) (e : Event) : State :=
  if s.uncaught.isSome then s
  else
    match e with
    | .netJobSucceeded j data =>
      let s := { s with buffers := fun k => if k = j then data else s.buffers k }
      emitSignal (runSlot env "") (.netJob j) .finished
        (emitSignal (runSlot env "") (.netJob j) .succeeded s)
    | .netJobFailed j reason =>
      emitSignal (runSlot env "") (.netJob j) .finished
        (emitSignal (runSlot env reason) (.netJob j) .failed s)
    | .downloadSucceeded target => emitSignal (runSlot env "") (.download target) .succeeded s
    | .abort => abort env s

/-- Delivers the events in order. -/
def run (env : Env) (s : State) (events : List Event) : State :=
  events.foldl (step env) s

/-- Modelled from the spec: the outcome of a batch of transfers in the download
engine, which is not among the sources: "a digest mismatch is a transfer
failure" and one failed transfer "fails the whole batch". `transfers` tells for
each action whether it completed. -/
def batchOutcome (j : JobId) (transfers : List Bool) (reason : String) : Event :=
  if transfers.all id then .netJobSucceeded j (.malformed "" ⟨0, ""⟩) else .netJobFailed j reason

/-- A freshly started task: `Task::start` makes it running and calls
`executeTask`. All response buffers are empty. -/
def start (OS : String) (isLegacy : Bool) (permissions : String → Nat) : State :=
  executeTask OS isLegacy
    { taskState := .running, connections := [], trace := [], permissions := permissions,
      uncaught := none, buffers := fun _ => .malformed "" ⟨0, "illegal value"⟩ }

/-- The terminal events emitted so far. -/
def State.terminalEvents (s : State) : List Effect :=
  s.trace.filter Effect.isTerminal

/-- The jobs started so far, in order. -/
def State.started (s : State) : List JobId :=
  s.trace.filterMap (fun e => match e with | .start j _ => some j | _ => none)

/-! ## Vocabulary of the specification -/

/-- The platform identifiers the mapper has a row for. -/
def mappedPlatforms : List String :=
  ["mac-os-arm64", "linux-arm64", "linux-arm", "linux"]

/-- The channel key of the primary provider's version index. -/
def channelKey (isLegacy : Bool) : String :=
  if isLegacy then "jre-legacy" else "java-runtime-gamma"

/-- The candidate array found under the platform identifier and the channel
key of a version index, read off the document directly; empty when either key
is missing or holds something that is not of the expected kind. -/
def candidateArray (doc : QJsonDocument) (OS : String) (isLegacy : Bool) : QJsonArray :=
  match doc with
  | .ofObject index =>
    match index.find? (fun kv => kv.1 == OS) with
    | some (_, .object platform) =>
      match platform.find? (fun kv => kv.1 == channelKey isLegacy) with
      | some (_, .array candidates) => candidates
      | _ => []
    | _ => []
  | _ => []

/-- The manifest reference URL nested in a candidate: `candidate.manifest.url`,
empty when it is not there. -/
def manifestUrl (candidate : QJsonValue) : String :=
  Json.ensureString (Json.ensureObjectAt (Json.ensureObject candidate) "manifest") "url"

/-- The install directory of a channel below the install root. -/
def installDir (installRoot : String) (isLegacy : Bool) : String :=
  installRoot ++ "/java/" ++ (if isLegacy then "java-legacy" else "java-current")

/-- Where a path of the program points on disk: a relative path resolves
against the current directory. -/
def absolutePath (env : Env) (path : String) : String :=
  if path.data.head? = some '/' then path else cleanPath (env.currentPath ++ "/" ++ path)

/-- The directories named by `removeRecursively` effects. -/
def removedDirs (trace : List Effect) : List String :=
  trace.filterMap (fun e => match e with | .removeRecursively d => some d | _ => none)

/-- The targets of the `extractDir` effects. -/
def extractTargets (trace : List Effect) : List String :=
  trace.filterMap (fun e => match e with | .extractDir _ _ t _ => some t | _ => none)

/-- The directories named by `ensureFolderPathExists` effects. -/
def ensuredDirs (trace : List Effect) : List String :=
  trace.filterMap (fun e => match e with | .ensureFolderPathExists d => some d | _ => none)

/-! ## Sample surroundings and responses -/

/-- A system-wide install: the binary lives in `/usr/bin`, the data directory
(the current directory of the process) in the home of the user. -/
def sampleEnv : Env where
  root := "/usr"
  applicationDirPath := "/usr/bin"
  currentPath := "/home/user/.local/share/PrismLauncher"
  temporaryFileName := fun _ => "/usr/temp/Ab12Cd.zip"
  extractDirOk := false

/-- No permission bits set on any file. -/
def noPermissions : String → Nat := fun _ => 0

/-- A version index with no entry at all: `{}`. -/
def emptyIndex : QByteArray :=
  .json "{}" (.ofObject [])

/-- The document of a version index with one Legacy candidate for `linux`. -/
def linuxIndexDoc : QJsonDocument :=
  .ofObject [("linux", .object [("jre-legacy", .array
    [.object [("manifest", .object [("url", .string "https://piston-meta.mojang.com/m.json")])]])])]

/-- A version index with one Legacy candidate for `linux`. -/
def linuxIndex : QByteArray :=
  .json "" linuxIndexDoc

/-- A body that is not JSON. -/
def notJson : QByteArray :=
  .malformed "<html>" ⟨0, "illegal value"⟩

/-- A bundle index with one bundle. -/
def oneBundle : QByteArray :=
  .json "" (.ofArray [.object [("url", .string "https://cdn.azul.com/zulu/bin/zulu8-jre.zip")]])

/-- A file-list manifest whose single entry is a file without `downloads`. -/
def fileWithoutDownloads : QByteArray :=
  .json "" (.ofObject [("files", .object [("bin", .object [("type", .string "file")])])])

/-- The state in which the bundle query is in flight. -/
def azulMetaInFlight (isLegacy : Bool) (trace : List Effect) (permissions : String → Nat)
    (buffers : JobId → QByteArray) : State :=
  { taskState := .running,
    connections :=
      [⟨.task, .aborted, .removeInstallDir isLegacy⟩,
       ⟨.netJob .queryAzulMeta, .finished, .jobFinished .queryAzulMeta⟩,
       ⟨.task, .aborted, .abortJob .queryAzulMeta⟩,
       ⟨.netJob .queryAzulMeta, .progress, .progress⟩,
       ⟨.netJob .queryAzulMeta, .succeeded, .azulMetaSucceeded isLegacy⟩],
    trace := trace,
    permissions := permissions,
    uncaught := none,
    buffers := buffers }

/-- The `files` member of a file-list manifest, read off the document directly;
empty when it is missing or not an object. -/
def filesObject (doc : QJsonDocument) : QJsonObject :=
  match doc with
  | .ofObject manifest =>
    match manifest.find? (fun kv => kv.1 == "files") with
    | some (_, .object list) => list
    | _ => []
  | _ => []

/-- The `type` of the manifest entry stored under `key`, if the entry is an
object with a string `type`. -/
def entryType (list : QJsonObject) (key : String) : Option String :=
  match list.value key with
  | .object entry =>
    match QJsonObject.value entry "type" with
    | .string t => some t
    | _ => none
  | _ => none

/-- The keys of the entries of the given type, in manifest order. -/
def keysOfType (list : QJsonObject) (type : String) : List String :=
  list.keys.filter (fun key => decide (entryType list key = some type))

/-- The entry under `key` is an object with a string `type` and has the fields
its type requires: a string `target` for a link, a string `downloads.raw.url`
for a file. -/
def wellFormedEntry (list : QJsonObject) (key : String) : Bool :=
  match list.value key with
  | .object entry =>
    match QJsonObject.value entry "type" with
    | .string t =>
      if t = "link" then
        match QJsonObject.value entry "target" with
        | .string _ => true
        | _ => false
      else if t = "file" then
        match QJsonObject.value entry "downloads" with
        | .object downloads =>
          match QJsonObject.value downloads "raw" with
          | .object raw =>
            match QJsonObject.value raw "url" with
            | .string _ => true
            | _ => false
          | _ => false
        | _ => false
      else true
    | _ => false
  | _ => false

/-- The download descriptor of the file entry under `key`: its path under the
install directory, raw url, SHA-1 digest and executable flag. -/
def descriptor (output : String) (list : QJsonObject) (key : String) : File :=
  let entry := (list.value key).toObject
  let raw := ((entry.value "downloads").toObject.value "raw").toObject
  { path := FS.PathCombine output key,
    url := (raw.value "url").toString,
    hash := fromHex (raw.value "sha1").toString,
    isExec := match entry.value "executable" with
      | .bool b => b
      | _ => false }

/-- The file-system effect of the entry under `key`: a directory is ensured, a
link is made to the sibling-relative target, anything else has none. -/
def entryEffect (output : String) (list : QJsonObject) (key : String) : Option Effect :=
  if entryType list key = some "directory" then
    some (.ensureFolderPathExists (FS.PathCombine output key))
  else if entryType list key = some "link" then
    some (.link (FS.PathCombine (FS.PathCombine output key)
      ("../" ++ ((list.value key).toObject.value "target").toString)) (FS.PathCombine output key))
  else none

/-- A directory creation. -/
def Effect.isEnsureFolder : Effect → Bool
  | .ensureFolderPathExists _ => true
  | _ => false

/-- A link creation. -/
def Effect.isLink : Effect → Bool
  | .link _ _ => true
  | _ => false

/-- The permission connections made by the second loop of `downloadMojangJava`. -/
def execConnections (files : List File) : List Connection :=
  (files.filter (·.isExec)).map (fun f => ⟨.download f.path, .succeeded, .setExecutable f⟩)

/-- The state in which the file-list manifest download is in flight. -/
def manifestInFlight (isLegacy : Bool) (trace : List Effect) (permissions : String → Nat)
    (buffers : JobId → QByteArray) : State :=
  { taskState := .running,
    connections :=
      [⟨.task, .aborted, .removeInstallDir isLegacy⟩,
       ⟨.netJob .manifestDownload, .finished, .jobFinished .manifestDownload⟩,
       ⟨.netJob .manifestDownload, .progress, .progress⟩,
       ⟨.netJob .manifestDownload, .failed, .emitFailed⟩,
       ⟨.task, .aborted, .abortJob .manifestDownload⟩,
       ⟨.netJob .manifestDownload, .succeeded, .manifestSucceeded isLegacy⟩],
    trace := trace,
    permissions := permissions,
    uncaught := none,
    buffers := buffers }

/-- The state in which the file download batch is in flight. -/
def filesInFlight (isLegacy : Bool) (files : List File) (trace : List Effect)
    (permissions : String → Nat) (buffers : JobId → QByteArray) : State :=
  { taskState := .running,
    connections :=
      ⟨.task, .aborted, .removeInstallDir isLegacy⟩ :: (execConnections files ++
      [⟨.netJob .fileDownload, .finished, .jobFinished .fileDownload⟩,
       ⟨.netJob .fileDownload, .progress, .progress⟩,
       ⟨.netJob .fileDownload, .failed, .emitFailed⟩,
       ⟨.task, .aborted, .abortJob .fileDownload⟩,
       ⟨.netJob .fileDownload, .succeeded, .emitSucceeded⟩]),
    trace := trace,
    permissions := permissions,
    uncaught := none,
    buffers := buffers }

/-- The install directory as `downloadMojangJava` and the abort compensation
name it. -/
def outputDir (isLegacy : Bool) : String :=
  FS.PathCombine "java" (if isLegacy then "java-legacy" else "java-current")

/-- The file-system effects of the entries of a manifest, in manifest order. -/
def manifestEffects (isLegacy : Bool) (doc : QJsonDocument) : List Effect :=
  (filesObject doc).keys.filterMap (entryEffect (outputDir isLegacy) (filesObject doc))

/-- The download descriptors of the file entries of a manifest, in manifest
order. -/
def manifestDescriptors (isLegacy : Bool) (doc : QJsonDocument) : List File :=
  (keysOfType (filesObject doc) "file").map (descriptor (outputDir isLegacy) (filesObject doc))

/-- A file-list manifest with one directory, one executable file and one link. -/
def sampleManifest : QJsonDocument :=
  .ofObject [("files", .object
    [("bin", .object [("type", .string "directory")]),
     ("bin/java", .object
        [("type", .string "file"), ("executable", .bool true),
         ("downloads", .object [("raw", .object
            [("sha1", .string "0a1b"), ("url", .string "https://piston-data.mojang.com/java")])])]),
     ("jre", .object [("type", .string "link"), ("target", .string "bin")])])]

/-- An executable file of the download batch. -/
def sampleFile : File :=
  { path := "java/java-legacy/bin/java", url := "https://piston-data.mojang.com/java",
    hash := [10, 27], isExec := true }

/-! ## Theorems -/

/-- C1: each of the four mapped platform identifiers yields its documented
(os, arch, bitness) triple, whatever the three output strings held before. -/
theorem mojangOStoAzul_mapped (a b c : String) :
    mojangOStoAzul "mac-os-arm64" a b c = ("macos", "arm", "64") ∧
    mojangOStoAzul "linux-arm64" a b c = ("linux", "arm", "64") ∧
    mojangOStoAzul "linux-arm" a b c = ("linux", "arm", "32") ∧
    mojangOStoAzul "linux" a b c = ("linux", "x86", "64") := by
  refine ⟨?_, ?_, ?_, ?_⟩ <;> simp [mojangOStoAzul]

/-- C2, as stated, fails: for the unmapped identifier "windows-x64" the mapper
hands back three empty strings and no signal, and `downloadAzulMeta` builds and
starts the bundle query with empty os, arch and hw_bitness fields. -/
theorem unmapped_windows_yields_empty_fields :
    "windows-x64" ∉ mappedPlatforms ∧
    mojangOStoAzul "windows-x64" "" "" "" = ("", "", "") ∧
    (run sampleEnv (start "windows-x64" true noPermissions)
        [.netJobSucceeded .queryVersions emptyIndex]).trace.getLast? =
      some (.start .queryAzulMeta [.makeByteArray
        ("https://api.azul.com/zulu/download/community/v1.0/bundles/?java_version=8.0"
          ++ "&os=&arch=&hw_bitness=&ext=zip&bundle_type=jre&latest=true")]) ∧
    (run sampleEnv (start "windows-x64" true noPermissions)
        [.netJobSucceeded .queryVersions emptyIndex]).terminalEvents = [] := by
  refine ⟨by decide, by decide, by decide, by decide⟩

/-- C2, amended: for every identifier outside the mapped set the mapper leaves
the three output strings as they were; `downloadAzulMeta`, which passes them in
empty, starts the bundle query with empty os, arch and hw_bitness fields and
emits no terminal event. -/
theorem mojangOStoAzul_unmapped (OS : String) (h : OS ∉ mappedPlatforms) :
    (∀ a b c : String, mojangOStoAzul OS a b c = (a, b, c)) ∧
    (∀ (isLegacy : Bool) (netJob : JobId) (s : State),
      (downloadAzulMeta OS isLegacy netJob s).trace = s.trace ++
        [.setStatus "Querying Azul meta",
         .start .queryAzulMeta
          [.makeByteArray (azulQuery (if isLegacy then "8.0" else "17.0") "" "" "")]] ∧
      (downloadAzulMeta OS isLegacy netJob s).taskState = s.taskState) := by
  have hm : ∀ a b c : String, mojangOStoAzul OS a b c = (a, b, c) := by
    intro a b c
    simp only [mappedPlatforms, List.mem_cons, List.mem_singleton, not_or, List.mem_nil_iff,
      or_false] at h
    obtain ⟨h1, h2, h3, h4⟩ := h
    simp [mojangOStoAzul, h1, h2, h3, h4]
  refine ⟨hm, ?_⟩
  intro isLegacy netJob s
  simp [downloadAzulMeta, State.push, State.connect, hm]

/-- Witness of `mojangOStoAzul_unmapped` at "windows-x64". -/
theorem mojangOStoAzul_unmapped_witness :
    "windows-x64" ∉ mappedPlatforms ∧
    (∀ a b c : String, mojangOStoAzul "windows-x64" a b c = (a, b, c)) :=
  ⟨by decide, (mojangOStoAzul_unmapped "windows-x64" (by decide)).1⟩

/-- C3 fails on the code: in each of the three response handlers a body that
is not valid JSON is logged and the handler returns; no terminal event is
emitted, the task stays running and the only connection left is the abort
compensation. -/
theorem malformed_body_leaves_task_running :
    ((run sampleEnv (start "linux" true noPermissions)
        [.netJobSucceeded .queryVersions notJson]).terminalEvents = [] ∧
     (run sampleEnv (start "linux" true noPermissions)
        [.netJobSucceeded .queryVersions notJson]).taskState = .running ∧
     (run sampleEnv (start "linux" true noPermissions)
        [.netJobSucceeded .queryVersions notJson]).connections =
        [⟨.task, .aborted, .removeInstallDir true⟩]) ∧
    ((run sampleEnv (start "linux" true noPermissions)
        [.netJobSucceeded .queryVersions linuxIndex,
         .netJobSucceeded .manifestDownload notJson]).terminalEvents = [] ∧
     (run sampleEnv (start "linux" true noPermissions)
        [.netJobSucceeded .queryVersions linuxIndex,
         .netJobSucceeded .manifestDownload notJson]).taskState = .running ∧
     (run sampleEnv (start "linux" true noPermissions)
        [.netJobSucceeded .queryVersions linuxIndex,
         .netJobSucceeded .manifestDownload notJson]).connections =
        [⟨.task, .aborted, .removeInstallDir true⟩]) ∧
    ((run sampleEnv (start "linux" true noPermissions)
        [.netJobSucceeded .queryVersions emptyIndex,
         .netJobSucceeded .queryAzulMeta notJson]).terminalEvents = [] ∧
     (run sampleEnv (start "linux" true noPermissions)
        [.netJobSucceeded .queryVersions emptyIndex,
         .netJobSucceeded .queryAzulMeta notJson]).taskState = .running ∧
     (run sampleEnv (start "linux" true noPermissions)
        [.netJobSucceeded .queryVersions emptyIndex,
         .netJobSucceeded .queryAzulMeta notJson]).connections =
        [⟨.task, .aborted, .removeInstallDir true⟩]) := by
  refine ⟨⟨?_, ?_, ?_⟩, ⟨?_, ?_, ?_⟩, ⟨?_, ?_, ?_⟩⟩ <;> decide

/-- C4 fails on the code: `downloadAzulMeta` connects `failed` of the job it
was handed (the version query, already over) instead of `failed` of the bundle
query it starts, so a failure of the bundle query emits no terminal event and
the task stays running. The four other jobs, by contrast, pass their failure
reason on unchanged. -/
theorem azul_query_failure_is_dropped :
    (run sampleEnv (start "linux-arm" true noPermissions)
        [.netJobSucceeded .queryVersions emptyIndex,
         .netJobFailed .queryAzulMeta "Connection timed out"]).terminalEvents = [] ∧
    (run sampleEnv (start "linux-arm" true noPermissions)
        [.netJobSucceeded .queryVersions emptyIndex,
         .netJobFailed .queryAzulMeta "Connection timed out"]).taskState = .running ∧
    (run sampleEnv (start "linux-arm" true noPermissions)
        [.netJobSucceeded .queryVersions emptyIndex]).slotsFor
          (.netJob .queryAzulMeta) .failed = [] ∧
    (run sampleEnv (start "linux-arm" true noPermissions)
        [.netJobFailed .queryVersions "Connection timed out"]).terminalEvents =
      [.failed "Connection timed out"] ∧
    (run sampleEnv (start "linux" true noPermissions)
        [.netJobSucceeded .queryVersions linuxIndex,
         .netJobFailed .manifestDownload "Connection timed out"]).terminalEvents =
      [.failed "Connection timed out"] ∧
    (run sampleEnv (start "linux" true noPermissions)
        [.netJobSucceeded .queryVersions linuxIndex,
         .netJobSucceeded .manifestDownload (.json "" sampleManifest),
         .netJobFailed .fileDownload "Connection timed out"]).terminalEvents =
      [.failed "Connection timed out"] ∧
    (run sampleEnv (start "linux-arm" true noPermissions)
        [.netJobSucceeded .queryVersions emptyIndex,
         .netJobSucceeded .queryAzulMeta oneBundle,
         .netJobFailed .azulDownload "Connection timed out"]).terminalEvents =
      [.failed "Connection timed out"] := by
  refine ⟨?_, ?_, ?_, ?_, ?_, ?_, ?_⟩ <;> decide

/-- C8 fails on the code: with the data directory as current directory and the
binary in `/usr/bin`, the abort compensation removes `java/java-legacy` below
the current directory, which is where the manifest path installs, while the
archive path extracts into `/usr/bin/java/java-legacy`. -/
theorem abort_dir_differs_from_extract_dir :
    removedDirs (run sampleEnv (start "linux-arm" true noPermissions) [.abort]).trace =
      ["java/java-legacy"] ∧
    ensuredDirs (run sampleEnv (start "linux" true noPermissions)
        [.netJobSucceeded .queryVersions linuxIndex,
         .netJobSucceeded .manifestDownload (.json "" sampleManifest)]).trace =
      ["java/java-legacy", "java/java-legacy/bin"] ∧
    extractTargets (run sampleEnv (start "linux-arm" true noPermissions)
        [.netJobSucceeded .queryVersions emptyIndex,
         .netJobSucceeded .queryAzulMeta oneBundle,
         .netJobSucceeded .azulDownload emptyIndex]).trace =
      ["/usr/bin/java/java-legacy"] ∧
    absolutePath sampleEnv "java/java-legacy" =
      installDir "/home/user/.local/share/PrismLauncher" true ∧
    absolutePath sampleEnv "/usr/bin/java/java-legacy" = installDir "/usr/bin" true ∧
    absolutePath sampleEnv "java/java-legacy" ≠
      absolutePath sampleEnv "/usr/bin/java/java-legacy" := by
  refine ⟨?_, ?_, ?_, ?_, ?_, ?_⟩ <;> decide

/-- C9 fails on the code: the value returned by `MMCZip::extractDir` is
dropped, so a run whose extraction fails still emits `succeeded` and ends
Succeeded. -/
theorem failed_extraction_still_succeeds :
    sampleEnv.extractDirOk = false ∧
    (run sampleEnv (start "linux-arm" true noPermissions)
        [.netJobSucceeded .queryVersions emptyIndex,
         .netJobSucceeded .queryAzulMeta oneBundle,
         .netJobSucceeded .azulDownload emptyIndex]).trace.drop 9 =
      [.extractDir "/usr/temp/Ab12Cd.zip" "zulu8-jre" "/usr/bin/java/java-legacy" false,
       .succeeded] ∧
    (run sampleEnv (start "linux-arm" true noPermissions)
        [.netJobSucceeded .queryVersions emptyIndex,
         .netJobSucceeded .queryAzulMeta oneBundle,
         .netJobSucceeded .azulDownload emptyIndex]).terminalEvents = [.succeeded] ∧
    (run sampleEnv (start "linux-arm" true noPermissions)
        [.netJobSucceeded .queryVersions emptyIndex,
         .netJobSucceeded .queryAzulMeta oneBundle,
         .netJobSucceeded .azulDownload emptyIndex]).taskState = .succeeded := by
  refine ⟨rfl, ?_, ?_, ?_⟩ <;> decide

theorem contains_eq_isSome (o : QJsonObject) (key : String) :
    QJsonObject.contains o key = (o.find? (fun kv => kv.1 == key)).isSome := by
  induction o with
  | nil => rfl
  | cons kv rest ih =>
    simp only [QJsonObject.contains, List.any_cons, List.find?_cons] at ih ⊢
    cases h : (kv.1 == key) <;> simp [ih]

theorem ensureArrayAt_eq (parent : QJsonObject) (key : String) :
    Json.ensureArrayAt parent key =
      match parent.find? (fun kv => kv.1 == key) with
      | some (_, .array a) => a
      | _ => [] := by
  unfold Json.ensureArrayAt
  rw [contains_eq_isSome]
  unfold QJsonObject.value
  cases h : parent.find? (fun kv => kv.1 == key) with
  | none => simp
  | some kv =>
    obtain ⟨k, v⟩ := kv
    cases v <;> simp [Json.ensureArray]

theorem ensureObjectAt_eq (parent : QJsonObject) (key : String) :
    Json.ensureObjectAt parent key =
      match parent.find? (fun kv => kv.1 == key) with
      | some (_, .object o) => o
      | _ => [] := by
  unfold Json.ensureObjectAt
  rw [contains_eq_isSome]
  unfold QJsonObject.value
  cases h : parent.find? (fun kv => kv.1 == key) with
  | none => simp
  | some kv =>
    obtain ⟨k, v⟩ := kv
    cases v <;> simp [Json.ensureObject]

theorem ensure_chain_eq_candidateArray (doc : QJsonDocument) (OS : String) (isLegacy : Bool) :
    Json.ensureArrayAt (Json.ensureObjectAt doc.object OS)
      (if isLegacy then "jre-legacy" else "java-runtime-gamma") =
    candidateArray doc OS isLegacy := by
  rw [ensureArrayAt_eq, ensureObjectAt_eq]
  cases doc with
  | empty => simp [QJsonDocument.object, candidateArray]
  | ofArray a => simp [QJsonDocument.object, candidateArray]
  | ofObject o =>
    simp only [QJsonDocument.object, candidateArray, channelKey]
    cases h : o.find? (fun kv => kv.1 == OS) with
    | none => simp
    | some kv =>
      obtain ⟨k, v⟩ := kv
      cases v <;> simp

theorem step_versions_fallback (env : Env) (OS : String) (isLegacy : Bool)
    (permissions : String → Nat) (raw : String) (doc : QJsonDocument)
    (hc : candidateArray doc OS isLegacy = []) :
    step env (start OS isLegacy permissions) (.netJobSucceeded .queryVersions (.json raw doc)) =
      { taskState := .running,
        connections :=
          [⟨.task, .aborted, .removeInstallDir isLegacy⟩,
           ⟨.netJob .queryAzulMeta, .finished, .jobFinished .queryAzulMeta⟩,
           ⟨.task, .aborted, .abortJob .queryAzulMeta⟩,
           ⟨.netJob .queryAzulMeta, .progress, .progress⟩,
           ⟨.netJob .queryAzulMeta, .succeeded, .azulMetaSucceeded isLegacy⟩],
        trace := (start OS isLegacy permissions).trace ++
          [.setStatus "Querying Azul meta",
           .start .queryAzulMeta [.makeByteArray (azulQuery (if isLegacy then "8.0" else "17.0")
              (mojangOStoAzul OS "" "" "").1 (mojangOStoAzul OS "" "" "").2.1
              (mojangOStoAzul OS "" "" "").2.2)]],
        permissions := permissions,
        uncaught := none,
        buffers := fun k => if k = .queryVersions then .json raw doc
          else .malformed "" ⟨0, "illegal value"⟩ } := by
  simp [step, start, executeTask, downloadMojangJavaList, State.push, State.connect, emitSignal,
    State.slotsFor, runSlot, runPlainSlot, versionsSucceeded, QJsonDocument.fromJson,
    ensure_chain_eq_candidateArray, hc, downloadAzulMeta, jobFinished, State.disconnect,
    State.deleteJob]

theorem step_versions_manifest (env : Env) (OS : String) (isLegacy : Bool)
    (permissions : String → Nat) (raw : String) (doc : QJsonDocument)
    (first : QJsonValue) (rest : List QJsonValue)
    (hc : candidateArray doc OS isLegacy = first :: rest) :
    step env (start OS isLegacy permissions) (.netJobSucceeded .queryVersions (.json raw doc)) =
      { taskState := .running,
        connections :=
          [⟨.task, .aborted, .removeInstallDir isLegacy⟩,
           ⟨.netJob .manifestDownload, .finished, .jobFinished .manifestDownload⟩,
           ⟨.netJob .manifestDownload, .progress, .progress⟩,
           ⟨.netJob .manifestDownload, .failed, .emitFailed⟩,
           ⟨.task, .aborted, .abortJob .manifestDownload⟩,
           ⟨.netJob .manifestDownload, .succeeded, .manifestSucceeded isLegacy⟩],
        trace := (start OS isLegacy permissions).trace ++
          [.setStatus "Downloading java from Mojang",
           .start .manifestDownload [.makeByteArray (manifestUrl first)]],
        permissions := permissions,
        uncaught := none,
        buffers := fun k => if k = .queryVersions then .json raw doc
          else .malformed "" ⟨0, "illegal value"⟩ } := by
  simp [step, start, executeTask, downloadMojangJavaList, State.push, State.connect, emitSignal,
    State.slotsFor, runSlot, runPlainSlot, versionsSucceeded, QJsonDocument.fromJson,
    ensure_chain_eq_candidateArray, hc, parseMojangManifest, jobFinished, State.disconnect,
    State.deleteJob, QJsonArray.at, manifestUrl]

/-- C5: on a well-formed version index the run goes on to the manifest download
of the first candidate exactly when the candidate array under the platform
identifier and the channel key is non-empty, and to the fallback query
otherwise; either way the task stays running and emits no terminal event. -/
theorem versions_response_selects_stage (env : Env) (OS : String) (isLegacy : Bool)
    (permissions : String → Nat) (raw : String) (doc : QJsonDocument) :
    (∀ first rest, candidateArray doc OS isLegacy = first :: rest →
      (run env (start OS isLegacy permissions)
          [.netJobSucceeded .queryVersions (.json raw doc)]).trace =
        (start OS isLegacy permissions).trace ++
          [.setStatus "Downloading java from Mojang",
           .start .manifestDownload [.makeByteArray (manifestUrl first)]]) ∧
    (candidateArray doc OS isLegacy = [] →
      (run env (start OS isLegacy permissions)
          [.netJobSucceeded .queryVersions (.json raw doc)]).trace =
        (start OS isLegacy permissions).trace ++
          [.setStatus "Querying Azul meta",
           .start .queryAzulMeta [.makeByteArray (azulQuery (if isLegacy then "8.0" else "17.0")
              (mojangOStoAzul OS "" "" "").1 (mojangOStoAzul OS "" "" "").2.1
              (mojangOStoAzul OS "" "" "").2.2)]]) ∧
    ((run env (start OS isLegacy permissions)
          [.netJobSucceeded .queryVersions (.json raw doc)]).started =
        [.queryVersions, .manifestDownload] ↔ candidateArray doc OS isLegacy ≠ []) ∧
    ((run env (start OS isLegacy permissions)
          [.netJobSucceeded .queryVersions (.json raw doc)]).started =
        [.queryVersions, .queryAzulMeta] ↔ candidateArray doc OS isLegacy = []) ∧
    (run env (start OS isLegacy permissions)
        [.netJobSucceeded .queryVersions (.json raw doc)]).taskState = .running ∧
    (run env (start OS isLegacy permissions)
        [.netJobSucceeded .queryVersions (.json raw doc)]).terminalEvents = [] := by
  have hrun : run env (start OS isLegacy permissions)
      [.netJobSucceeded .queryVersions (.json raw doc)] =
      step env (start OS isLegacy permissions) (.netJobSucceeded .queryVersions (.json raw doc)) :=
    rfl
  have hstart : (start OS isLegacy permissions).trace =
      [.setStatus "Querying mojang meta",
       .start .queryVersions [.makeByteArray
        "https://piston-meta.mojang.com/v1/products/java-runtime/2ec0cc96c44e5a76b9c8b7c39df7210883d12871/all.json"]] :=
    rfl
  rw [hrun]
  cases hc : candidateArray doc OS isLegacy with
  | nil =>
    rw [step_versions_fallback env OS isLegacy permissions raw doc hc, hstart]
    simp [State.started, State.terminalEvents, Effect.isTerminal]
  | cons first rest =>
    rw [step_versions_manifest env OS isLegacy permissions raw doc first rest hc, hstart]
    simp [State.started, State.terminalEvents, Effect.isTerminal]

/-- The state reached when the version index had no candidate: the bundle
query is in flight. -/
theorem run_versions_fallback (env : Env) (OS : String) (isLegacy : Bool)
    (permissions : String → Nat) (raw : String) (doc : QJsonDocument)
    (hc : candidateArray doc OS isLegacy = []) (later : List Event) :
    run env (start OS isLegacy permissions)
        (.netJobSucceeded .queryVersions (.json raw doc) :: later) =
      run env
        { taskState := .running,
          connections :=
            [⟨.task, .aborted, .removeInstallDir isLegacy⟩,
             ⟨.netJob .queryAzulMeta, .finished, .jobFinished .queryAzulMeta⟩,
             ⟨.task, .aborted, .abortJob .queryAzulMeta⟩,
             ⟨.netJob .queryAzulMeta, .progress, .progress⟩,
             ⟨.netJob .queryAzulMeta, .succeeded, .azulMetaSucceeded isLegacy⟩],
          trace := (start OS isLegacy permissions).trace ++
            [.setStatus "Querying Azul meta",
             .start .queryAzulMeta [.makeByteArray (azulQuery (if isLegacy then "8.0" else "17.0")
                (mojangOStoAzul OS "" "" "").1 (mojangOStoAzul OS "" "" "").2.1
                (mojangOStoAzul OS "" "" "").2.2)]],
          permissions := permissions,
          uncaught := none,
          buffers := fun k => if k = .queryVersions then .json raw doc
            else .malformed "" ⟨0, "illegal value"⟩ } later := by
  simp only [run, List.foldl_cons]
  rw [step_versions_fallback env OS isLegacy permissions raw doc hc]

/-- Once the task is over and only slots of the task itself are connected, no
event changes the trace, the task state or the connections. -/
theorem step_after_end (env : Env) (s : State) (e : Event)
    (hstate : s.taskState ≠ .running) (hconn : ∀ c ∈ s.connections, c.sender = .task) :
    (step env s e).trace = s.trace ∧ (step env s e).taskState = s.taskState ∧
      (step env s e).connections = s.connections := by
  have hnone : ∀ (t : State) (sender : Sender) (signal : Signal),
      t.connections = s.connections → sender ≠ .task → t.slotsFor sender signal = [] := by
    intro t sender signal ht hs
    simp only [State.slotsFor, ht, List.map_eq_nil_iff, List.filter_eq_nil_iff]
    intro c hcmem
    have := hconn c hcmem
    simp [this, Ne.symm hs]
  unfold step
  split
  · exact ⟨rfl, rfl, rfl⟩
  · cases e with
    | netJobSucceeded j data =>
      simp [emitSignal, hnone]
    | netJobFailed j reason =>
      simp [emitSignal, hnone]
    | downloadSucceeded target =>
      simp [emitSignal, hnone]
    | abort =>
      simp [abort, hstate]

theorem run_after_end (env : Env) (events : List Event) (s : State)
    (hstate : s.taskState ≠ .running) (hconn : ∀ c ∈ s.connections, c.sender = .task) :
    (run env s events).trace = s.trace ∧ (run env s events).taskState = s.taskState := by
  induction events generalizing s with
  | nil => exact ⟨rfl, rfl⟩
  | cons e rest ih =>
    obtain ⟨ht, hs, hc⟩ := step_after_end env s e hstate hconn
    have := ih (step env s e) (by rw [hs]; exact hstate) (by rw [hc]; exact hconn)
    simp only [run, List.foldl_cons] at this ⊢
    rw [this.1, this.2, ht, hs]
    exact ⟨rfl, rfl⟩

theorem step_azul_meta_empty (env : Env) (isLegacy : Bool) (trace : List Effect)
    (permissions : String → Nat) (buffers : JobId → QByteArray) (raw : String)
    (doc : QJsonDocument) (hd : doc.array = []) :
    step env (azulMetaInFlight isLegacy trace permissions buffers)
        (.netJobSucceeded .queryAzulMeta (.json raw doc)) =
      { taskState := .failed,
        connections := [⟨.task, .aborted, .removeInstallDir isLegacy⟩],
        trace := trace ++ [.failed "No suitable JRE found"],
        permissions := permissions,
        uncaught := none,
        buffers := fun k => if k = .queryAzulMeta then .json raw doc else buffers k } := by
  simp [step, azulMetaInFlight, emitSignal, State.slotsFor, runSlot, runPlainSlot,
    azulMetaSucceeded, QJsonDocument.fromJson, Json.ensureArray, hd, emitFailed, State.push,
    jobFinished, State.disconnect, State.deleteJob]

theorem step_azul_meta_bundle (env : Env) (isLegacy : Bool) (trace : List Effect)
    (permissions : String → Nat) (buffers : JobId → QByteArray) (raw : String)
    (doc : QJsonDocument) (first : QJsonValue) (rest : List QJsonValue)
    (hd : doc.array = first :: rest) :
    step env (azulMetaInFlight isLegacy trace permissions buffers)
        (.netJobSucceeded .queryAzulMeta (.json raw doc)) =
      { taskState := .running,
        connections :=
          [⟨.task, .aborted, .removeInstallDir isLegacy⟩,
           ⟨.netJob .azulDownload, .finished, .jobFinished .azulDownload⟩,
           ⟨.netJob .azulDownload, .progress, .progress⟩,
           ⟨.netJob .azulDownload, .failed, .emitFailed⟩,
           ⟨.task, .aborted, .abortJob .azulDownload⟩,
           ⟨.netJob .azulDownload, .succeeded,
            .azulDownloadSucceeded isLegacy
              (env.temporaryFileName (FS.PathCombine3 env.root "temp" "XXXXXX.zip"))
              (first.toObject.value "url").toString⟩],
        trace := trace ++
          [.setStatus "Downloading java from Azul",
           .ensureFolderPathExists (FS.PathCombine env.root "temp"),
           .openTemporaryFile (env.temporaryFileName (FS.PathCombine3 env.root "temp" "XXXXXX.zip")),
           .start .azulDownload
            [.makeFile (first.toObject.value "url").toString
              (env.temporaryFileName (FS.PathCombine3 env.root "temp" "XXXXXX.zip")) none]],
        permissions := permissions,
        uncaught := none,
        buffers := fun k => if k = .queryAzulMeta then .json raw doc else buffers k } := by
  simp [step, azulMetaInFlight, emitSignal, State.slotsFor, runSlot, runPlainSlot,
    azulMetaSucceeded, QJsonDocument.fromJson, Json.ensureArray, hd, downloadAzulJava, State.push,
    State.connect, jobFinished, State.disconnect, State.deleteJob, QJsonArray.at]

/-- C6: on a well-formed bundle index whose array is empty the task emits
`failed` with the "No suitable JRE found" reason, ends Failed and does nothing
further whatever happens later; when the array is non-empty the task goes on
to download the archive at the url of the first bundle. -/
theorem azul_meta_response (env : Env) (OS : String) (isLegacy : Bool)
    (permissions : String → Nat) (raw1 : String) (doc1 : QJsonDocument) (raw2 : String)
    (doc2 : QJsonDocument) (hc : candidateArray doc1 OS isLegacy = []) :
    (doc2.array = [] → ∀ later : List Event,
      (run env (start OS isLegacy permissions)
          (.netJobSucceeded .queryVersions (.json raw1 doc1) ::
            .netJobSucceeded .queryAzulMeta (.json raw2 doc2) :: later)).trace =
        (run env (start OS isLegacy permissions)
          [.netJobSucceeded .queryVersions (.json raw1 doc1)]).trace ++
          [.failed "No suitable JRE found"] ∧
      (run env (start OS isLegacy permissions)
          (.netJobSucceeded .queryVersions (.json raw1 doc1) ::
            .netJobSucceeded .queryAzulMeta (.json raw2 doc2) :: later)).taskState = .failed) ∧
    (∀ first rest, doc2.array = first :: rest →
      (run env (start OS isLegacy permissions)
          [.netJobSucceeded .queryVersions (.json raw1 doc1),
           .netJobSucceeded .queryAzulMeta (.json raw2 doc2)]).trace =
        (run env (start OS isLegacy permissions)
          [.netJobSucceeded .queryVersions (.json raw1 doc1)]).trace ++
          [.setStatus "Downloading java from Azul",
           .ensureFolderPathExists (FS.PathCombine env.root "temp"),
           .openTemporaryFile (env.temporaryFileName (FS.PathCombine3 env.root "temp" "XXXXXX.zip")),
           .start .azulDownload
            [.makeFile (first.toObject.value "url").toString
              (env.temporaryFileName (FS.PathCombine3 env.root "temp" "XXXXXX.zip")) none]] ∧
      (run env (start OS isLegacy permissions)
          [.netJobSucceeded .queryVersions (.json raw1 doc1),
           .netJobSucceeded .queryAzulMeta (.json raw2 doc2)]).taskState = .running) := by
  refine ⟨?_, ?_⟩
  · intro hd later
    rw [run_versions_fallback env OS isLegacy permissions raw1 doc1 hc,
      run_versions_fallback env OS isLegacy permissions raw1 doc1 hc]
    simp only [run, List.foldl_cons, List.foldl_nil]
    rw [← run]
    have h := step_azul_meta_empty env isLegacy
      ((start OS isLegacy permissions).trace ++
        [.setStatus "Querying Azul meta",
         .start .queryAzulMeta [.makeByteArray (azulQuery (if isLegacy then "8.0" else "17.0")
            (mojangOStoAzul OS "" "" "").1 (mojangOStoAzul OS "" "" "").2.1
            (mojangOStoAzul OS "" "" "").2.2)]])
      permissions
      (fun k => if k = .queryVersions then .json raw1 doc1 else .malformed "" ⟨0, "illegal value"⟩)
      raw2 doc2 hd
    unfold azulMetaInFlight at h
    rw [h]
    exact run_after_end env later _ (by simp) (by simp)
  · intro first rest hd
    rw [run_versions_fallback env OS isLegacy permissions raw1 doc1 hc,
      run_versions_fallback env OS isLegacy permissions raw1 doc1 hc]
    simp only [run, List.foldl_cons, List.foldl_nil]
    have h := step_azul_meta_bundle env isLegacy
      ((start OS isLegacy permissions).trace ++
        [.setStatus "Querying Azul meta",
         .start .queryAzulMeta [.makeByteArray (azulQuery (if isLegacy then "8.0" else "17.0")
            (mojangOStoAzul OS "" "" "").1 (mojangOStoAzul OS "" "" "").2.1
            (mojangOStoAzul OS "" "" "").2.2)]])
      permissions
      (fun k => if k = .queryVersions then .json raw1 doc1 else .malformed "" ⟨0, "illegal value"⟩)
      raw2 doc2 first rest hd
    unfold azulMetaInFlight at h
    rw [h]
    exact ⟨rfl, rfl⟩

/-- Witness of `azul_meta_response`: an empty version index followed by an
empty bundle index ends the run Failed. -/
theorem azul_meta_response_witness :
    candidateArray (.ofObject []) "linux-arm" true = [] ∧
    (run sampleEnv (start "linux-arm" true noPermissions)
        [.netJobSucceeded .queryVersions (.json "{}" (.ofObject [])),
         .netJobSucceeded .queryAzulMeta (.json "[]" (.ofArray []))]).taskState = .failed :=
  ⟨rfl, ((azul_meta_response sampleEnv "linux-arm" true noPermissions "{}" (.ofObject []) "[]"
    (.ofArray []) rfl).1 rfl []).2⟩

theorem classifyEntry_wellFormed (output : String) (list : QJsonObject) (key : String)
    (h : wellFormedEntry list key = true) :
    classifyEntry output list key =
      .ok ((entryEffect output list key).toList,
        if entryType list key = some "file" then [descriptor output list key] else []) := by
  unfold wellFormedEntry at h
  unfold classifyEntry entryEffect entryType descriptor Json.requireObject
  cases hv : list.value key with
  | object entry =>
    simp only [hv] at h ⊢
    simp only [Json.requireString, QJsonValue.toObject]
    cases ht : QJsonObject.value entry "type" with
    | string t =>
      simp only [ht] at h ⊢
      by_cases hdir : t = "directory"
      · subst hdir; simp
      · by_cases hlink : t = "link"
        · subst hlink
          simp only [if_true] at h
          cases htg : QJsonObject.value entry "target" with
          | string tg => simp [QJsonValue.toString]
          | _ => simp [htg] at h
        · by_cases hfile : t = "file"
          · subst hfile
            simp only [if_true, if_neg hlink] at h
            cases hd : QJsonObject.value entry "downloads" with
            | object downloads =>
              simp only [hd] at h
              cases hr : QJsonObject.value downloads "raw" with
              | object raw =>
                simp only [hr] at h
                cases hu : QJsonObject.value raw "url" with
                | string url =>
                  simp only [hd, hr, hu, QJsonValue.toString, Json.ensureBoolean,
                    Json.ensureString, QJsonValue.toObject, if_neg hdir, if_neg hlink, if_true]
                  simp
                | _ => simp [hu] at h
              | _ => simp [hr] at h
            | _ => simp [hd] at h
          · simp [hdir, hlink, hfile]
    | _ => simp [ht] at h
  | _ => simp [hv] at h

theorem classifyEntries_wellFormed (output : String) (list : QJsonObject) (keys : List String)
    (h : ∀ key ∈ keys, wellFormedEntry list key = true) :
    classifyEntries output list keys =
      (keys.filterMap (entryEffect output list),
        .ok ((keys.filter (fun key => decide (entryType list key = some "file"))).map
          (descriptor output list))) := by
  induction keys with
  | nil => rfl
  | cons key rest ih =>
    have hk := classifyEntry_wellFormed output list key (h key (List.mem_cons_self _ _))
    have hrest := ih (fun k hk => h k (List.mem_cons_of_mem _ hk))
    simp only [classifyEntries, hk, hrest]
    cases he : entryEffect output list key <;>
      by_cases hf : entryType list key = some "file" <;>
      simp [he, hf, List.filterMap_cons, List.filter_cons]

theorem entryEffect_isEnsureFolder (output : String) (list : QJsonObject) (keys : List String) :
    ((keys.filterMap (entryEffect output list)).filter Effect.isEnsureFolder).length =
      (keys.filter (fun key => decide (entryType list key = some "directory"))).length := by
  induction keys with
  | nil => rfl
  | cons key rest ih =>
    by_cases hd : entryType list key = some "directory"
    · simp [List.filterMap_cons, List.filter_cons, entryEffect, hd, Effect.isEnsureFolder, ih]
    · by_cases hl : entryType list key = some "link"
      · simp [List.filterMap_cons, List.filter_cons, entryEffect, hd, hl, Effect.isEnsureFolder,
          ih]
      · simp [List.filterMap_cons, List.filter_cons, entryEffect, hd, hl, ih]

theorem entryEffect_isLink (output : String) (list : QJsonObject) (keys : List String) :
    ((keys.filterMap (entryEffect output list)).filter Effect.isLink).length =
      (keys.filter (fun key => decide (entryType list key = some "link"))).length := by
  induction keys with
  | nil => rfl
  | cons key rest ih =>
    by_cases hd : entryType list key = some "directory"
    · have hl : entryType list key ≠ some "link" := by rw [hd]; decide
      simp [List.filterMap_cons, List.filter_cons, entryEffect, hd, Effect.isLink, ih]
    · by_cases hl : entryType list key = some "link"
      · simp [List.filterMap_cons, List.filter_cons, entryEffect, hd, hl, Effect.isLink, ih]
      · simp [List.filterMap_cons, List.filter_cons, entryEffect, hd, hl, ih]

theorem entryEffect_length (output : String) (list : QJsonObject) (keys : List String) :
    (keys.filterMap (entryEffect output list)).length =
      (keys.filter (fun key => decide (entryType list key = some "directory"))).length +
      (keys.filter (fun key => decide (entryType list key = some "link"))).length := by
  induction keys with
  | nil => rfl
  | cons key rest ih =>
    by_cases hd : entryType list key = some "directory"
    · have hl : entryType list key ≠ some "link" := by rw [hd]; decide
      simp [List.filterMap_cons, List.filter_cons, entryEffect, hd, ih]
      omega
    · by_cases hl : entryType list key = some "link"
      · simp [List.filterMap_cons, List.filter_cons, entryEffect, hd, hl, ih]
        omega
      · simp [List.filterMap_cons, List.filter_cons, entryEffect, hd, hl, ih]

theorem foldl_addDownload (files : List File) (s : State) :
    files.foldl addDownload s =
      { s with connections := s.connections ++ execConnections files } := by
  induction files generalizing s with
  | nil => simp [execConnections]
  | cons f rest ih =>
    rw [List.foldl_cons, ih]
    by_cases hx : f.isExec = true
    · simp [addDownload, hx, execConnections, State.connect, List.filter_cons]
    · simp [addDownload, hx, execConnections, List.filter_cons]

theorem filter_execConnections_none (p : Connection → Bool) (files : List File)
    (h : ∀ target slot, p ⟨.download target, .succeeded, slot⟩ = false) :
    (execConnections files).filter p = [] := by
  simp only [execConnections, List.filter_eq_nil_iff, List.mem_map, List.mem_filter]
  rintro c ⟨f, _, rfl⟩
  simp [h]

theorem filter_execConnections_all (p : Connection → Bool) (files : List File)
    (h : ∀ target slot, p ⟨.download target, .succeeded, slot⟩ = true) :
    (execConnections files).filter p = execConnections files := by
  simp only [execConnections, List.filter_eq_self, List.mem_map, List.mem_filter]
  rintro c ⟨f, _, rfl⟩
  exact h _ _

theorem ensureFiles_eq_filesObject (doc : QJsonDocument) :
    Json.ensureObjectAt (Json.ensureObject (.object doc.object)) "files" = filesObject doc := by
  rw [ensureObjectAt_eq]
  cases doc <;> simp [Json.ensureObject, QJsonDocument.object, filesObject]

theorem step_manifest_wellFormed (env : Env) (isLegacy : Bool) (trace : List Effect)
    (permissions : String → Nat) (buffers : JobId → QByteArray) (raw : String)
    (doc : QJsonDocument)
    (hwf : ∀ key ∈ (filesObject doc).keys, wellFormedEntry (filesObject doc) key = true) :
    step env (manifestInFlight isLegacy trace permissions buffers)
        (.netJobSucceeded .manifestDownload (.json raw doc)) =
      filesInFlight isLegacy
        ((keysOfType (filesObject doc) "file").map
          (descriptor (FS.PathCombine "java" (if isLegacy then "java-legacy" else "java-current"))
            (filesObject doc)))
        (trace ++
          .ensureFolderPathExists
            (FS.PathCombine "java" (if isLegacy then "java-legacy" else "java-current")) ::
          ((filesObject doc).keys.filterMap
            (entryEffect (FS.PathCombine "java" (if isLegacy then "java-legacy" else "java-current"))
              (filesObject doc)) ++
          [.start .fileDownload
            (((keysOfType (filesObject doc) "file").map
              (descriptor
                (FS.PathCombine "java" (if isLegacy then "java-legacy" else "java-current"))
                (filesObject doc))).map fileAction)]))
        permissions
        (fun k => if k = .manifestDownload then .json raw doc else buffers k) := by
  have hcls := classifyEntries_wellFormed
    (FS.PathCombine "java" (if isLegacy then "java-legacy" else "java-current"))
    (filesObject doc) (filesObject doc).keys hwf
  simp [step, manifestInFlight, emitSignal, State.slotsFor, runSlot, runPlainSlot,
    manifestSucceeded, QJsonDocument.fromJson, downloadMojangJava, ensureFiles_eq_filesObject,
    hcls, foldl_addDownload, State.push, State.connect, jobFinished, State.disconnect,
    State.deleteJob, filesInFlight, keysOfType, filter_execConnections_none,
    filter_execConnections_all, List.filter_cons]

theorem run_versions_manifest (env : Env) (OS : String) (isLegacy : Bool)
    (permissions : String → Nat) (raw : String) (doc : QJsonDocument)
    (first : QJsonValue) (rest : List QJsonValue)
    (hc : candidateArray doc OS isLegacy = first :: rest) (later : List Event) :
    run env (start OS isLegacy permissions)
        (.netJobSucceeded .queryVersions (.json raw doc) :: later) =
      run env
        (manifestInFlight isLegacy
          ((start OS isLegacy permissions).trace ++
            [.setStatus "Downloading java from Mojang",
             .start .manifestDownload [.makeByteArray (manifestUrl first)]])
          permissions
          (fun k => if k = .queryVersions then .json raw doc
            else .malformed "" ⟨0, "illegal value"⟩)) later := by
  simp only [run, List.foldl_cons]
  rw [step_versions_manifest env OS isLegacy permissions raw doc first rest hc]
  rfl

theorem step_files_succeeded (env : Env) (isLegacy : Bool) (files : List File)
    (trace : List Effect) (permissions : String → Nat) (buffers : JobId → QByteArray)
    (data : QByteArray) :
    (step env (filesInFlight isLegacy files trace permissions buffers)
        (.netJobSucceeded .fileDownload data)).trace = trace ++ [.succeeded] := by
  simp [step, filesInFlight, emitSignal, State.slotsFor, runSlot, runPlainSlot, emitSucceeded,
    State.push, jobFinished, State.disconnect, State.deleteJob, filter_execConnections_none,
    filter_execConnections_all, List.filter_cons]

theorem step_files_failed (env : Env) (isLegacy : Bool) (files : List File)
    (trace : List Effect) (permissions : String → Nat) (buffers : JobId → QByteArray)
    (reason : String) :
    (step env (filesInFlight isLegacy files trace permissions buffers)
        (.netJobFailed .fileDownload reason)).trace = trace ++ [.failed reason] := by
  simp [step, filesInFlight, emitSignal, State.slotsFor, runSlot, runPlainSlot, emitFailed,
    State.push, jobFinished, State.disconnect, State.deleteJob, filter_execConnections_none,
    filter_execConnections_all, List.filter_cons]

theorem manifestEffects_not_terminal (isLegacy : Bool) (doc : QJsonDocument) :
    (manifestEffects isLegacy doc).filter Effect.isTerminal = [] := by
  simp only [manifestEffects, List.filter_eq_nil_iff, List.mem_filterMap]
  rintro e ⟨key, _, he⟩
  unfold entryEffect at he
  split at he
  · cases he; simp [Effect.isTerminal]
  · split at he
    · cases he; simp [Effect.isTerminal]
    · cases he

/-- C7, as stated, fails: for a manifest whose single entry is a file without
`downloads` (one file entry, no directory entry), `downloadMojangJava` ensures
one directory, the install directory, and then `Json::requireObject` throws: no
download batch is ever submitted and no terminal event is emitted, whatever
the transfers would have done. -/
theorem file_entry_without_downloads_stops_the_run :
    keysOfType (filesObject (.ofObject [("files", .object [("bin", .object
        [("type", .string "file")])])])) "file" = ["bin"] ∧
    keysOfType (filesObject (.ofObject [("files", .object [("bin", .object
        [("type", .string "file")])])])) "directory" = [] ∧
    ensuredDirs (run sampleEnv (start "linux" true noPermissions)
        [.netJobSucceeded .queryVersions linuxIndex,
         .netJobSucceeded .manifestDownload fileWithoutDownloads]).trace =
      ["java/java-legacy"] ∧
    (run sampleEnv (start "linux" true noPermissions)
        [.netJobSucceeded .queryVersions linuxIndex,
         .netJobSucceeded .manifestDownload fileWithoutDownloads]).started =
      [.queryVersions, .manifestDownload] ∧
    (run sampleEnv (start "linux" true noPermissions)
        [.netJobSucceeded .queryVersions linuxIndex,
         .netJobSucceeded .manifestDownload fileWithoutDownloads]).uncaught =
      some ⟨"downloads"⟩ ∧
    (run sampleEnv (start "linux" true noPermissions)
        [.netJobSucceeded .queryVersions linuxIndex,
         .netJobSucceeded .manifestDownload fileWithoutDownloads,
         batchOutcome .fileDownload [true] ""]).terminalEvents = [] := by
  refine ⟨?_, ?_, ?_, ?_, ?_, ?_⟩ <;> decide

/-- C7, amended: for every file-list manifest in which each entry has the
fields its type requires, with N file, K directory and M link entries,
`downloadMojangJava` ensures the install directory, then performs exactly one
file-system effect per directory and link entry (K directories, M links), and
only then submits the batch, which holds exactly the N descriptors of the file
entries (path under the install directory, raw url and SHA-1 digest, the
executable flag being carried by the permission connection of the download);
the run emits `succeeded` if and only if all transfers of the batch succeed,
and `failed` with the reason of the batch otherwise. -/
theorem manifest_materialized (env : Env) (OS : String) (isLegacy : Bool)
    (permissions : String → Nat) (raw1 : String) (doc1 : QJsonDocument) (raw : String)
    (doc : QJsonDocument) (first : QJsonValue) (rest : List QJsonValue)
    (hc : candidateArray doc1 OS isLegacy = first :: rest)
    (hwf : ∀ key ∈ (filesObject doc).keys, wellFormedEntry (filesObject doc) key = true) :
    (run env (start OS isLegacy permissions)
        [.netJobSucceeded .queryVersions (.json raw1 doc1),
         .netJobSucceeded .manifestDownload (.json raw doc)]).trace =
      (run env (start OS isLegacy permissions)
        [.netJobSucceeded .queryVersions (.json raw1 doc1)]).trace ++
        .ensureFolderPathExists (outputDir isLegacy) ::
          (manifestEffects isLegacy doc ++
            [.start .fileDownload ((manifestDescriptors isLegacy doc).map fileAction)]) ∧
    ((manifestEffects isLegacy doc).filter Effect.isEnsureFolder).length =
      (keysOfType (filesObject doc) "directory").length ∧
    ((manifestEffects isLegacy doc).filter Effect.isLink).length =
      (keysOfType (filesObject doc) "link").length ∧
    (manifestEffects isLegacy doc).length =
      (keysOfType (filesObject doc) "directory").length +
        (keysOfType (filesObject doc) "link").length ∧
    (manifestDescriptors isLegacy doc).length = (keysOfType (filesObject doc) "file").length ∧
    (run env (start OS isLegacy permissions)
        [.netJobSucceeded .queryVersions (.json raw1 doc1),
         .netJobSucceeded .manifestDownload (.json raw doc)]).connections =
      ⟨.task, .aborted, .removeInstallDir isLegacy⟩ ::
        (execConnections (manifestDescriptors isLegacy doc) ++
          [⟨.netJob .fileDownload, .finished, .jobFinished .fileDownload⟩,
           ⟨.netJob .fileDownload, .progress, .progress⟩,
           ⟨.netJob .fileDownload, .failed, .emitFailed⟩,
           ⟨.task, .aborted, .abortJob .fileDownload⟩,
           ⟨.netJob .fileDownload, .succeeded, .emitSucceeded⟩]) ∧
    (∀ (transfers : List Bool) (reason : String),
      ((run env (start OS isLegacy permissions)
          [.netJobSucceeded .queryVersions (.json raw1 doc1),
           .netJobSucceeded .manifestDownload (.json raw doc),
           batchOutcome .fileDownload transfers reason]).terminalEvents = [.succeeded] ↔
        transfers.all id = true) ∧
      (transfers.all id = false →
        (run env (start OS isLegacy permissions)
          [.netJobSucceeded .queryVersions (.json raw1 doc1),
           .netJobSucceeded .manifestDownload (.json raw doc),
           batchOutcome .fileDownload transfers reason]).terminalEvents = [.failed reason])) := by
  have hstart : (start OS isLegacy permissions).trace =
      [.setStatus "Querying mojang meta",
       .start .queryVersions [.makeByteArray
        "https://piston-meta.mojang.com/v1/products/java-runtime/2ec0cc96c44e5a76b9c8b7c39df7210883d12871/all.json"]] :=
    rfl
  have hstep := step_manifest_wellFormed env isLegacy
    ((start OS isLegacy permissions).trace ++
      [.setStatus "Downloading java from Mojang",
       .start .manifestDownload [.makeByteArray (manifestUrl first)]])
    permissions
    (fun k => if k = .queryVersions then .json raw1 doc1 else .malformed "" ⟨0, "illegal value"⟩)
    raw doc hwf
  refine ⟨?_, ?_, ?_, ?_, ?_, ?_, ?_⟩
  · rw [run_versions_manifest env OS isLegacy permissions raw1 doc1 first rest hc,
      run_versions_manifest env OS isLegacy permissions raw1 doc1 first rest hc]
    simp only [run, List.foldl_cons, List.foldl_nil]
    rw [hstep]
    simp [filesInFlight, manifestInFlight, manifestEffects, manifestDescriptors, outputDir]
  · exact entryEffect_isEnsureFolder _ _ _
  · exact entryEffect_isLink _ _ _
  · exact entryEffect_length _ _ _
  · simp [manifestDescriptors]
  · rw [run_versions_manifest env OS isLegacy permissions raw1 doc1 first rest hc]
    simp only [run, List.foldl_cons, List.foldl_nil]
    rw [hstep]
    rfl
  · intro transfers reason
    rw [run_versions_manifest env OS isLegacy permissions raw1 doc1 first rest hc]
    simp only [run, List.foldl_cons, List.foldl_nil]
    rw [hstep]
    have hnt := manifestEffects_not_terminal isLegacy doc
    simp only [manifestEffects, outputDir] at hnt
    cases hall : transfers.all id with
    | true =>
      have hb : batchOutcome .fileDownload transfers reason =
          .netJobSucceeded .fileDownload (.malformed "" ⟨0, ""⟩) := by
        simp [batchOutcome, hall]
      simp only [hb, State.terminalEvents, step_files_succeeded]
      simp [hstart, Effect.isTerminal, hnt]
    | false =>
      have hb : batchOutcome .fileDownload transfers reason =
          .netJobFailed .fileDownload reason := by
        simp [batchOutcome, hall]
      simp only [hb, State.terminalEvents, step_files_failed]
      simp [hstart, Effect.isTerminal, hnt]

theorem or_mask_keeps_flag (p mask flag : Nat) (h : mask &&& flag = flag) :
    (p ||| mask) &&& flag = flag := by
  apply Nat.eq_of_testBit_eq
  intro i
  have hi := congrArg (fun n => n.testBit i) h
  simp only [Nat.testBit_and, Nat.testBit_or] at hi ⊢
  cases hp : p.testBit i <;> cases hm : mask.testBit i <;> cases hf : flag.testBit i <;>
    simp_all

theorem executable_permissions (env : Env) (file : File) (s : State)
    (hu : s.uncaught = none) (hfresh : s.slotsFor (.download file.path) .succeeded = []) :
    (file.isExec = true →
      (step env (addDownload s file) (.downloadSucceeded file.path)).permissions file.path =
        s.permissions file.path ||| 0x1111 ∧
      (s.permissions file.path ||| 0x1111) &&& ExeOwner = ExeOwner ∧
      (s.permissions file.path ||| 0x1111) &&& ExeUser = ExeUser ∧
      (s.permissions file.path ||| 0x1111) &&& ExeGroup = ExeGroup ∧
      (s.permissions file.path ||| 0x1111) &&& ExeOther = ExeOther ∧
      ∀ i, (s.permissions file.path).testBit i = true →
        (s.permissions file.path ||| 0x1111).testBit i = true) ∧
    (file.isExec = false →
      (step env (addDownload s file) (.downloadSucceeded file.path)).permissions =
        s.permissions ∧
      (step env (addDownload s file) (.downloadSucceeded file.path)).trace = s.trace) := by
  have hfilter : List.filter (fun c : Connection =>
      decide (c.sender = Sender.download file.path) && decide (c.signal = Signal.succeeded))
      s.connections = [] := by
    simpa [State.slotsFor] using hfresh
  refine ⟨?_, ?_⟩
  · intro hx
    refine ⟨?_, or_mask_keeps_flag _ _ _ (by decide), or_mask_keeps_flag _ _ _ (by decide),
      or_mask_keeps_flag _ _ _ (by decide), or_mask_keeps_flag _ _ _ (by decide), ?_⟩
    · simp [step, addDownload, hx, hu, State.connect, emitSignal, State.slotsFor, hfilter,
        runSlot, runPlainSlot, setExecutable, State.setPermissions, State.push]
    · intro i hi
      simp [Nat.testBit_or, hi]
  · intro hx
    simp [step, addDownload, hx, hu, emitSignal, hfresh]


/-- Witness of `manifest_materialized` on a manifest with one directory, one
executable file and one link. -/
theorem manifest_materialized_witness :
    (∀ key ∈ (filesObject sampleManifest).keys,
      wellFormedEntry (filesObject sampleManifest) key = true) ∧
    (manifestDescriptors true sampleManifest).length =
      (keysOfType (filesObject sampleManifest) "file").length ∧
    ((run sampleEnv (start "linux" true noPermissions)
        [.netJobSucceeded .queryVersions (.json "" linuxIndexDoc),
         .netJobSucceeded .manifestDownload (.json "" sampleManifest),
         batchOutcome .fileDownload [true] ""]).terminalEvents = [.succeeded] ↔
      [true].all id = true) :=
  ⟨by decide,
   (manifest_materialized sampleEnv "linux" true noPermissions "" linuxIndexDoc ""
      sampleManifest _ [] rfl (by decide)).2.2.2.2.1,
   ((manifest_materialized sampleEnv "linux" true noPermissions "" linuxIndexDoc ""
      sampleManifest _ [] rfl (by decide)).2.2.2.2.2.2 [true] "").1⟩

/-- Witness of `executable_permissions`: a file with read and write bits
`0x6644` ends with `0x7755`. -/
theorem executable_permissions_witness :
    (step sampleEnv (addDownload (start "linux" true (fun _ => 0x6644)) sampleFile)
      (.downloadSucceeded sampleFile.path)).permissions sampleFile.path = 0x7755 :=
  ((executable_permissions sampleEnv sampleFile (start "linux" true (fun _ => 0x6644)) rfl
    rfl).1 rfl).1

/-- Witness of `versions_response_selects_stage`: the sample index for `linux`
has one Legacy candidate, and the run goes on to its manifest. -/
theorem versions_response_selects_stage_witness :
    candidateArray linuxIndexDoc "linux" true ≠ [] ∧
    (run sampleEnv (start "linux" true noPermissions)
        [.netJobSucceeded .queryVersions (.json "" linuxIndexDoc)]).started =
      [.queryVersions, .manifestDownload] :=
  ⟨by simp [candidateArray, linuxIndexDoc, channelKey],
   (versions_response_selects_stage sampleEnv "linux" true noPermissions ""
      linuxIndexDoc).2.2.1.2 (by simp [candidateArray, linuxIndexDoc, channelKey])⟩

end JavaDownloader
